import Mathlib

/-
Verification of the request-authentication and request-logging pipeline of the
nest-init-kit repository, shallowly embedded in Lean 4.

Each definition mirrors one function of the TypeScript source:
  - string helpers mirror `String.prototype.trim` / `toLowerCase` / `includes`;
  - the sanitizers mirror `sanitizeHeaders` / `sanitizeBody` of
    RequestLoggingInterceptor, AllExceptionsFilter and RequestLoggingMiddleware
    (all three copies are textually identical in the source);
  - the exception classifier mirrors `AllExceptionsFilter.processException` /
    `handleCommonError`;
  - the recorder mirrors `RequestLogService` (logRequest, updateRequestLog,
    cleanupOldLogs, clearLogs, getRequestLog) over an association list standing
    for the insertion-ordered JavaScript `Map`, plus an append-only CSV list
    standing for the on-disk partitions written by `CsvLoggerService`;
  - the per-request pipeline composes the middleware's initial `logRequest`,
    the interceptor's tap/catchError completion, the filter's fallback
    completion, and the middleware's `res.end` override, threading the
    `wasHandledByInterceptor` flag exactly as the source does;
  - the client / role validators and the guard mirror ClientValidatorService,
    RoleValidatorService and JwtAuthGuard.canActivate;
  - the JWT strategy and refresh endpoint mirror `JwtStrategy.validate` and
    `AuthController.refresh`.

Non-deterministic inputs of the source (repository query results, token
verification outcomes, timestamps) are taken as explicit parameters.
-/

/-! ### String helpers (embedding `includes`, `toLowerCase`, `trim`) -/

/-- Boolean prefix test on character lists. -/
def isPrefixB : List Char → List Char → Bool
  | [], _ => true
  | _ :: _, [] => false
  | a :: as, b :: bs => a = b && isPrefixB as bs

/-- Boolean substring test on character lists, used to embed
`String.prototype.includes`. -/
def isSubB (pat : List Char) : List Char → Bool
  | [] => isPrefixB pat []
  | c :: cs => isPrefixB pat (c :: cs) || isSubB pat cs

/-- Embeds `s.includes(pat)` of JavaScript strings. -/
def containsSub (s pat : String) : Bool := isSubB pat.toList s.toList

/-- Embeds `s.toLowerCase()`. -/
def toLowerStr (s : String) : String := String.mk (s.toList.map Char.toLower)

/-- Whitespace-trimming of a character list (embedding of
`String.prototype.trim`). -/
def trimChars (s : List Char) : List Char :=
  ((s.dropWhile Char.isWhitespace).reverse.dropWhile Char.isWhitespace).reverse

/-- Embeds `s.trim()`. -/
def strTrim (s : String) : String := String.mk (trimChars s.toList)

/-! ### Captured JSON-ish values and the sanitizers

Header and body values as the sanitizers see them.  The sanitizers only read
JavaScript truthiness of a value and overwrite it with the string
`"[REDACTED]"`, so values are embedded shallowly: primitives carry their
truthiness-relevant data and `nestedObj` stands for any nested object value
(always truthy). -/

/-- A captured header/body field value. -/
inductive JsonPrim where
  | str (s : String)
  | num (n : Int)
  | boolVal (b : Bool)
  | nullVal
  | nestedObj
  deriving DecidableEq, Repr

/-- JavaScript truthiness of a captured value (`if (sanitized[header])`). -/
def truthy : JsonPrim → Bool
  | .str s => s ≠ ""
  | .num n => n ≠ 0
  | .boolVal b => b
  | .nullVal => false
  | .nestedObj => true

/-- A captured request/response body: a primitive or a flat object, which is
all the (non-recursive) sanitizer distinguishes. -/
inductive JsonVal where
  | prim (p : JsonPrim)
  | obj (fields : List (String × JsonPrim))
  deriving DecidableEq, Repr

/-- `sensitiveHeaders` of sanitizeHeaders in the interceptor, filter and
middleware sources. -/
def sensitiveHeaderKeys : List String :=
  ["authorization", "cookie", "x-api-key", "x-auth-token"]

/-- `sensitiveFields` of sanitizeBody in the interceptor, filter and middleware
sources. -/
def sensitiveBodyFields : List String :=
  ["password", "token", "secret", "key", "auth"]

/-- Embeds `sanitizeHeaders`: every present (truthy) sensitive header value is
overwritten with the redaction marker; everything else is kept. -/
def sanitizeHeaders (headers : List (String × JsonPrim)) : List (String × JsonPrim) :=
  headers.map fun kv =>
    if sensitiveHeaderKeys.contains kv.1 && truthy kv.2 then (kv.1, JsonPrim.str "[REDACTED]")
    else kv

/-- The per-field action of `sanitizeBody` on an object body. -/
def sanitizeBodyFields (fields : List (String × JsonPrim)) : List (String × JsonPrim) :=
  fields.map fun kv =>
    if sensitiveBodyFields.contains kv.1 && truthy kv.2 then (kv.1, JsonPrim.str "[REDACTED]")
    else kv

/-- Embeds `sanitizeBody`: non-objects are returned unchanged
(`if (!body || typeof body !== 'object') return body`), objects get their
truthy sensitive fields overwritten. -/
def sanitizeBody (body : JsonVal) : JsonVal :=
  match body with
  | .prim p => .prim p
  | .obj fields => .obj (sanitizeBodyFields fields)

/-- Modelled from the spec: the sensitive key set named by the specification
("authorization, cookie, password, token, secret"), kept separate from the two
per-surface lists the source actually uses, so the two can be compared. -/
def specSensitiveKeys : List String :=
  ["authorization", "cookie", "password", "token", "secret"]

/-! ### Exception classification (AllExceptionsFilter) -/

/-- Response body of a processed HTTP exception: `text` for the plain message
bodies the filter constructs, `withStack` for the development-mode
`{ message, stack }` object. -/
inductive ExcBody where
  | text (msg : String)
  | withStack (message : String) (stack : Option String)
  deriving DecidableEq, Repr

/-- A (Nest) HttpException as the filter sees it: HTTP status plus response
body. -/
structure HttpExceptionModel where
  status : Nat
  responseBody : ExcBody
  deriving DecidableEq, Repr

/-- The value caught by the global filter: an already-typed HttpException, a
string, a plain `Error` (message and optional stack), or anything else. -/
inductive CaughtError where
  | httpExc (e : HttpExceptionModel)
  | stringErr (s : String)
  | plainError (message : String) (stack : Option String)
  | unknownThrown
  deriving DecidableEq, Repr

/-- Embeds `AllExceptionsFilter.handleCommonError`. -/
def handleCommonError (message : String) (stack : Option String) (isProd : Bool) :
    HttpExceptionModel :=
  let m := toLowerStr message
  if containsSub m "duplicate" || containsSub m "unique" then
    { status := 409, responseBody := .text "Duplicate record" }
  else if containsSub m "foreign key" then
    { status := 400, responseBody := .text "Invalid relation" }
  else if isProd then
    { status := 500, responseBody := .text "Internal server error" }
  else
    { status := 500, responseBody := .withStack message stack }

/-- Embeds `AllExceptionsFilter.processException`. -/
def processException (err : CaughtError) (isProd : Bool) : HttpExceptionModel :=
  match err with
  | .httpExc e => e
  | .stringErr s => { status := 500, responseBody := .text s }
  | .plainError m st => handleCommonError m st isProd
  | .unknownThrown => { status := 503, responseBody := .text "Unexpected error" }

/-! ### The request-log recorder (RequestLogService + CsvLoggerService)

The in-memory `Map<string, RequestLog>` is embedded as an insertion-ordered
association list (JavaScript `Map.set` updates an existing key in place and
appends a fresh key; iteration order is insertion order).  The on-disk CSV
partitions are embedded as a single append-only list of rows, each tagged with
the success flag that selects the partition. -/

/-- `RequestLogData`: the fields of the initial entry that the recorder's
behaviour depends on (identity and the timestamp that drives eviction). -/
structure LogData where
  requestId : String
  timestamp : Nat
  deriving DecidableEq, Repr

/-- `RequestLogUpdate`: the completion record merged in by
`updateRequestLog`. -/
structure LogUpdate where
  statusCode : Nat
  duration : Nat
  success : Bool
  deriving DecidableEq, Repr

/-- `RequestLog = RequestLogData & Partial<RequestLogUpdate>`. -/
structure LogEntry where
  requestId : String
  timestamp : Nat
  completion : Option LogUpdate
  deriving DecidableEq, Repr

/-- One row of the on-disk CSV logs; `success` selects the
success/error partition. -/
structure CsvRow where
  requestId : String
  success : Bool
  deriving DecidableEq, Repr

/-- The recorder's state: the in-memory map plus the on-disk rows. -/
structure RecorderState where
  requestLogs : List (String × LogEntry)
  csvRows : List CsvRow
  deriving DecidableEq, Repr

/-- `maxStoredLogs` of RequestLogService. -/
def maxStoredLogs : Nat := 5000

/-- `Map.set`: update in place when the key is present, append otherwise. -/
def mapSet (m : List (String × LogEntry)) (k : String) (v : LogEntry) :
    List (String × LogEntry) :=
  if m.any fun kv => decide (kv.1 = k) then
    m.map fun kv => if kv.1 = k then (k, v) else kv
  else m ++ [(k, v)]

/-- `Map.get`. -/
def mapGet (m : List (String × LogEntry)) (k : String) : Option LogEntry :=
  (m.find? fun kv => decide (kv.1 = k)).map fun kv => kv.2

/-- `{ ...data }` as stored by `logRequest`: the initial entry has no
completion fields yet. -/
def toEntry (d : LogData) : LogEntry :=
  { requestId := d.requestId, timestamp := d.timestamp, completion := none }

/-- The comparator `(a, b) => b[1].timestamp - a[1].timestamp` used by
`cleanupOldLogs` (sorts newest first). -/
def byTimestampDesc (a b : String × LogEntry) : Bool :=
  decide (b.2.timestamp ≤ a.2.timestamp)

/-- Embeds `RequestLogService.cleanupOldLogs`: when over capacity, sort the
entries newest-first and keep the first `maxStoredLogs`; the CSV rows are not
touched. -/
def cleanupOldLogs (m : List (String × LogEntry)) : List (String × LogEntry) :=
  if m.length ≤ maxStoredLogs then m
  else (List.mergeSort m byTimestampDesc).take maxStoredLogs

/-- Embeds `RequestLogService.logRequest`: store the initial entry, then clean
up if the size limit is exceeded. -/
def logRequest (st : RecorderState) (d : LogData) : RecorderState :=
  let m := mapSet st.requestLogs d.requestId (toEntry d)
  { st with requestLogs := if maxStoredLogs < m.length then cleanupOldLogs m else m }

/-- Embeds `RequestLogService.updateRequestLog`: merge the completion into the
existing entry and append one row to the CSV partition selected by
`success`; when no entry exists, warn and drop (no state change).  The
`size > maxStoredLogs * 1.1` cleanup guard of the source is kept. -/
def updateRequestLog (st : RecorderState) (requestId : String) (upd : LogUpdate) :
    RecorderState :=
  match mapGet st.requestLogs requestId with
  | none => st
  | some existingLog =>
    let updatedLog : LogEntry := { existingLog with completion := some upd }
    let m := mapSet st.requestLogs requestId updatedLog
    let m := if maxStoredLogs * 11 / 10 < m.length then cleanupOldLogs m else m
    { requestLogs := m
      csvRows := st.csvRows ++ [{ requestId := requestId, success := upd.success }] }

/-- Embeds `RequestLogService.clearLogs`: empty the in-memory map; the CSV
rows are preserved. -/
def clearLogs (st : RecorderState) : RecorderState :=
  { requestLogs := [], csvRows := st.csvRows }

/-- Embeds the memory half of `RequestLogService.getRequestLog` (`none`
stands for the "Request log not found in memory" response). -/
def getRequestLog (st : RecorderState) (requestId : String) : Option LogEntry :=
  mapGet st.requestLogs requestId

/-- The pair stored in the map for a begin-record. -/
def toKV (d : LogData) : String × LogEntry := (d.requestId, toEntry d)

/-- The expected in-memory contents after sequentially inserting `processed`:
the most recent `maxStoredLogs` of them (all of them while under capacity). -/
def sliceMap (processed : List LogData) : List (String × LogEntry) :=
  (processed.drop (processed.length - maxStoredLogs)).map toKV

/-! ### The per-request logging pipeline (middleware, interceptor, filter)

One request is driven through the stages in source order.  `handled` threads
the `wasHandledByInterceptor` flag.  Durations are abstracted to `0` (no
recorder behaviour depends on them). -/

/-- `ignoredPaths` of AllExceptionsFilter. -/
def ignoredPaths : List String :=
  ["/favicon.ico", "/.well-known/appspecific/com.chrome.devtools.json",
   "/apple-touch-icon.png", "/robots.txt"]

/-- Embeds `AllExceptionsFilter.shouldIgnorePath`. -/
def shouldIgnorePath (path : String) (status : Nat) : Bool :=
  if status ≠ 404 then false
  else ignoredPaths.contains path

/-- Embeds `RequestLoggingInterceptor.saveCompleteRequestLog`: re-create the
initial entry, then merge the final response data. -/
def interceptorComplete (rid : String) (t : Nat) (statusCode : Nat) (success : Bool)
    (st : RecorderState) : RecorderState :=
  updateRequestLog (logRequest st { requestId := rid, timestamp := t }) rid
    { statusCode := statusCode, duration := 0, success := success }

/-- Embeds the fallback-logging block of `AllExceptionsFilter.catch`: when the
interceptor did not handle the request and the path is not ignored, create the
entry and complete it as an error. -/
def allExceptionsFilterPhase (rid : String) (t : Nat) (url : String) (statusCode : Nat)
    (handled : Bool) (st : RecorderState) : RecorderState :=
  let shouldLogError := !shouldIgnorePath url statusCode
  if !handled && shouldLogError then
    updateRequestLog (logRequest st { requestId := rid, timestamp := t }) rid
      { statusCode := statusCode, duration := 0, success := false }
  else st

/-- Embeds the `res.end` override installed by `RequestLoggingMiddleware.use`:
complete the entry as error (status ≥ 400) or success (status < 400) unless
the interceptor already handled the request. -/
def middlewareResEndHook (rid : String) (statusCode : Nat) (handled : Bool)
    (st : RecorderState) : RecorderState :=
  if 400 ≤ statusCode && !handled then
    updateRequestLog st rid { statusCode := statusCode, duration := 0, success := false }
  else if statusCode < 400 && !handled then
    updateRequestLog st rid { statusCode := statusCode, duration := 0, success := true }
  else st

/-- How one request ends: the handler completes normally; the handler (or a
pipe) throws so the interceptor's catchError runs; or the error is raised
before any interceptor ran (guard rejection, or no route matched so only the
filter sees it). -/
inductive RequestOutcome where
  | success (status : Nat)
  | handlerError (status : Nat)
  | preInterceptorError (status : Nat)
  deriving DecidableEq, Repr

/-- One request driven through middleware, interceptor, filter and the
response-end hook in source order, threading `wasHandledByInterceptor`. -/
def runRequestPipeline (o : RequestOutcome) (rid : String) (t : Nat) (url : String)
    (st0 : RecorderState) : RecorderState :=
  let st1 := logRequest st0 { requestId := rid, timestamp := t }
  match o with
  | .success status =>
    let st2 := interceptorComplete rid t status true st1
    middlewareResEndHook rid status true st2
  | .handlerError status =>
    let st2 := interceptorComplete rid t status false st1
    let st3 := allExceptionsFilterPhase rid t url status true st2
    middlewareResEndHook rid status true st3
  | .preInterceptorError status =>
    let st2 := allExceptionsFilterPhase rid t url status false st1
    middlewareResEndHook rid status false st2

/-- The number of terminal completions persisted on disk for a request: the
CSV rows carrying its id. -/
def completedRowCount (st : RecorderState) (rid : String) : Nat :=
  (st.csvRows.filter fun r => decide (r.requestId = rid)).length

/-! ### Client validation (ClientValidatorService)

Repository outcomes (`findByUuid`, `updateLastSeen`) are passed in as
functions from the looked-up UUID to an `Except`, standing for the awaited
promise result: `.error` is a rejected promise, `.ok` a resolved one. -/

/-- The fields of AllowedClientEntity that client validation reads. -/
structure AllowedClient where
  clientUuid : String
  clientType : String
  isActive : Bool
  deriving DecidableEq, Repr

/-- `AllowedClientEntity.isClientActive`. -/
def isClientActive (c : AllowedClient) : Bool := c.isActive

/-- The `ClientValidationError` payload together with the HTTP status of the
exception class it is wrapped in (`UnauthorizedException` = 401,
`ForbiddenException` = 403). -/
structure ClientValidationError where
  code : String
  statusCode : Nat
  httpStatus : Nat
  deriving DecidableEq, Repr

/-- The `MISSING_CLIENT_UUID_HEADER` error thrown by `extractClientUuid`. -/
def missingClientUuidError : ClientValidationError :=
  { code := "MISSING_CLIENT_UUID_HEADER", statusCode := 401, httpStatus := 401 }

/-- The `CLIENT_UUID_NOT_FOUND` error thrown by `findAllowedClient`. -/
def clientNotFoundError : ClientValidationError :=
  { code := "CLIENT_UUID_NOT_FOUND", statusCode := 401, httpStatus := 401 }

/-- The `CLIENT_VALIDATION_ERROR` wrapper for repository failures (body
statusCode 500 inside an UnauthorizedException). -/
def clientLookupFailedError : ClientValidationError :=
  { code := "CLIENT_VALIDATION_ERROR", statusCode := 500, httpStatus := 401 }

/-- The `CLIENT_INACTIVE` error thrown by `validateClientStatus`. -/
def clientInactiveError : ClientValidationError :=
  { code := "CLIENT_INACTIVE", statusCode := 403, httpStatus := 403 }

/-- Embeds `ClientValidatorService.extractClientUuid`; the header is `none`
when absent.  An absent or empty value is falsy, and a whitespace-only value
trims to the empty string; all three throw the missing-header error. -/
def extractClientUuid (header : Option String) : Except ClientValidationError String :=
  match header with
  | none => .error missingClientUuidError
  | some v =>
    if v = "" ∨ strTrim v = "" then .error missingClientUuidError
    else .ok (strTrim v)

/-- Embeds `ClientValidatorService.findAllowedClient` over the repository
outcome for the extracted UUID: a resolved `null` throws the not-found error,
a rejected lookup is caught and re-thrown as the wrapped validation error. -/
def findAllowedClient (repoResult : Except String (Option AllowedClient)) :
    Except ClientValidationError AllowedClient :=
  match repoResult with
  | .ok (some c) => .ok c
  | .ok none => .error clientNotFoundError
  | .error _ => .error clientLookupFailedError

/-- Embeds `ClientValidatorService.validateClientStatus`. -/
def validateClientStatus (c : AllowedClient) : Except ClientValidationError Unit :=
  if !isClientActive c then .error clientInactiveError
  else .ok ()

/-- Embeds `ClientValidatorService.updateClientLastSeen`: a rejected write is
caught and logged, never re-thrown; the returned flag records whether the
write succeeded (used only for logging in the source). -/
def updateClientLastSeen (writeResult : Except String Unit) :
    Except ClientValidationError Bool :=
  match writeResult with
  | .ok _ => .ok true
  | .error _ => .ok false

/-- The `request.user` object the guard pipeline accumulates. -/
structure RequestUserInfo where
  clientUuid : Option String
  clientType : Option String
  role : Option String
  deriving DecidableEq, Repr

/-- Embeds `ClientValidatorService.attachClientInfoToRequest`
(`request.user = { ...request.user, clientUuid, clientType }`). -/
def attachClientInfoToRequest (u : RequestUserInfo) (c : AllowedClient) : RequestUserInfo :=
  { u with clientUuid := some c.clientUuid, clientType := some c.clientType }

/-- Embeds `ClientValidatorService.validateClientUuid`: extract the header,
look the client up, check its active status, best-effort update of
`lastSeenAt`, then attach the client info to the request. -/
def validateClientUuid (header : Option String)
    (repoFind : String → Except String (Option AllowedClient))
    (repoUpdate : String → Except String Unit)
    (u : RequestUserInfo) : Except ClientValidationError RequestUserInfo := do
  let clientUuid ← extractClientUuid header
  let allowedClient ← findAllowedClient (repoFind clientUuid)
  let _ ← validateClientStatus allowedClient
  let _ ← updateClientLastSeen (repoUpdate clientUuid)
  .ok (attachClientInfoToRequest u allowedClient)

/-! ### Role validation (RoleValidatorService) and route metadata -/

/-- The route metadata the guard reads through the reflector: the `@Public`,
`@SuperAdmin` and `@Admin` flags and the `@Roles(...)` list
(`none` when the decorator is absent). -/
structure RouteMeta where
  isPublicRoute : Bool
  isSuperAdminRoute : Bool
  isAdminRoute : Bool
  requiredRoles : Option (List String)
  deriving DecidableEq, Repr

/-- The `RoleValidationError` payload (all role errors are thrown in a
`ForbiddenException`, HTTP 403). -/
structure RoleValidationError where
  code : String
  statusCode : Nat
  deriving DecidableEq, Repr

/-- `allowedRoles` of `validateAdminAccess`. -/
def adminAllowedRoles : List String := ["admin", "superadmin"]

/-- Embeds `RoleValidatorService.validateSuperAdminAccess`. -/
def validateSuperAdminAccess (userRole : String) : Except RoleValidationError Unit :=
  if userRole ≠ "superadmin" then
    .error { code := "SUPERADMIN_ACCESS_REQUIRED", statusCode := 403 }
  else .ok ()

/-- Embeds `RoleValidatorService.validateAdminAccess`. -/
def validateAdminAccess (userRole : String) : Except RoleValidationError Unit :=
  if !adminAllowedRoles.contains userRole then
    .error { code := "ADMIN_ACCESS_REQUIRED", statusCode := 403 }
  else .ok ()

/-- Embeds `RoleValidatorService.validateDynamicRoleAccess`. -/
def validateDynamicRoleAccess (userRole : String) (requiredRoles : List String) :
    Except RoleValidationError Unit :=
  if !requiredRoles.contains userRole then
    .error { code := "INSUFFICIENT_ROLE_PERMISSIONS", statusCode := 403 }
  else .ok ()

/-- Embeds `RoleValidatorService.validateRolePermissions`: superadmin routes
first, then admin routes, then a non-empty `@Roles` list; otherwise any
authenticated caller passes. -/
def validateRolePermissions (route : RouteMeta) (userRole : String) :
    Except RoleValidationError Unit :=
  if route.isSuperAdminRoute then validateSuperAdminAccess userRole
  else if route.isAdminRoute then validateAdminAccess userRole
  else
    match route.requiredRoles with
    | some requiredRoles =>
      if 0 < requiredRoles.length then validateDynamicRoleAccess userRole requiredRoles
      else .ok ()
    | none => .ok ()

/-- A route carrying only the `@SuperAdmin()` marker. -/
def superAdminOnlyRoute : RouteMeta :=
  { isPublicRoute := false, isSuperAdminRoute := true, isAdminRoute := false,
    requiredRoles := none }

/-- A route carrying `@Roles('moderator')`. -/
def moderatorOnlyRoute : RouteMeta :=
  { isPublicRoute := false, isSuperAdminRoute := false, isAdminRoute := false,
    requiredRoles := some ["moderator"] }

/-! ### The auth guard (JwtAuthGuard.canActivate)

Token verification (passport + `JwtStrategy`) is a cryptographic external; its
outcome is a parameter: `.ok u` means `super.canActivate` resolved and left
`u` as `request.user`, `.error` means it rejected (which the guard converts to
its `INVALID_JWT_TOKEN` UnauthorizedException). -/

/-- The three validation stages of the guard, recorded in execution order. -/
inductive GuardStep where
  | clientValidation
  | tokenValidation
  | roleValidation
  deriving DecidableEq, Repr

/-- A guard rejection: the error code and the HTTP status of the exception
that aborts the request. -/
structure GuardError where
  code : String
  httpStatus : Nat
  deriving DecidableEq, Repr

/-- Embeds `JwtAuthGuard.canActivate`, additionally returning the list of
validation stages that were invoked: a public route is allowed immediately;
otherwise client validation, JWT validation and role validation run in order,
each failure aborting with its error. -/
def canActivate (route : RouteMeta) (header : Option String)
    (repoFind : String → Except String (Option AllowedClient))
    (repoUpdate : String → Except String Unit)
    (tokenOutcome : Except String RequestUserInfo)
    (u : RequestUserInfo) : Except GuardError Bool × List GuardStep :=
  if route.isPublicRoute then (.ok true, [])
  else
    match validateClientUuid header repoFind repoUpdate u with
    | .error e => (.error { code := e.code, httpStatus := e.httpStatus }, [.clientValidation])
    | .ok _ =>
      match tokenOutcome with
      | .error _ =>
        (.error { code := "INVALID_JWT_TOKEN", httpStatus := 401 },
         [.clientValidation, .tokenValidation])
      | .ok validatedUser =>
        let userRole := validatedUser.role.getD ""
        match validateRolePermissions route userRole with
        | .error e =>
          (.error { code := e.code, httpStatus := 403 },
           [.clientValidation, .tokenValidation, .roleValidation])
        | .ok _ =>
          (.ok true, [.clientValidation, .tokenValidation, .roleValidation])

/-- A route carrying the `@Public()` marker. -/
def publicRouteExample : RouteMeta :=
  { isPublicRoute := true, isSuperAdminRoute := false, isAdminRoute := false,
    requiredRoles := none }

/-! ### JWT strategy and the token-refresh endpoint -/

/-- The `tokenType` claim values the token issuer signs. -/
inductive TokenTypeClaim where
  | access
  | refresh
  deriving DecidableEq, Repr

/-- A verified JWT payload as handed to `JwtStrategy.validate`: `sub = 0`
models a missing/falsy subject, an empty email a missing email; the
`tokenType` claim is present in every token minted by MyJwtService. -/
structure JwtPayloadModel where
  sub : Nat
  email : String
  tokenType : Option TokenTypeClaim
  deriving DecidableEq, Repr

/-- A 401-style authentication error. -/
structure AuthError where
  httpStatus : Nat
  message : String
  deriving DecidableEq, Repr

/-- The object `JwtStrategy.validate` returns, which passport installs as
`request.user`.  Absent properties are `none` (reading them in TypeScript
yields `undefined`). -/
structure StrategyUserModel where
  id : Option Nat
  sub : Option Nat
  email : Option String
  tokenType : Option TokenTypeClaim
  deriving DecidableEq, Repr

/-- Embeds `JwtStrategy.validate`: reject falsy `sub`/`email`, then return
`{ id: payload.sub, email: payload.email }` — and only those two properties. -/
def jwtStrategyValidate (p : JwtPayloadModel) : Except AuthError StrategyUserModel :=
  if p.sub = 0 ∨ p.email = "" then
    .error { httpStatus := 401, message := "Invalid token payload" }
  else
    .ok { id := some p.sub, sub := none, email := some p.email, tokenType := none }

/-- Embeds the body of `AuthController.refresh`: reject unless
`req.user.tokenType === 'refresh'`. -/
def refreshEndpoint (user : StrategyUserModel) : Except AuthError Unit :=
  if user.tokenType ≠ some .refresh then
    .error { httpStatus := 401, message := "Invalid token type" }
  else .ok ()

/-- A request to `POST /auth/refresh` presenting a token that already passed
signature/expiry verification with payload `p`: the strategy's `validate`
produces `request.user`, then the endpoint's token-type check runs. -/
def refreshRequest (p : JwtPayloadModel) : Except AuthError Unit :=
  match jwtStrategyValidate p with
  | .error e => .error e
  | .ok user => refreshEndpoint user

/-! ### Concrete insertion sequence used to exercise the eviction bound -/

/-- The i-th request id of the concrete insertion sequence (injective in
`i`). -/
def natKey (i : Nat) : String := String.mk (List.replicate i 'a')

/-- The i-th begin-record of the concrete insertion sequence. -/
def natEntry (i : Nat) : LogData := { requestId := natKey i, timestamp := i }

/-- `maxStoredLogs + 1` begin-records with distinct ids and strictly
increasing timestamps. -/
def esW : List LogData := (List.range (maxStoredLogs + 1)).map natEntry

/-! ### Concrete example inputs used by the witnesses -/

/-- A registered, active client. -/
def clientExample : AllowedClient :=
  { clientUuid := "uuid-1", clientType := "browser", isActive := true }

/-- A request user object before any pipeline stage ran. -/
def emptyUser : RequestUserInfo :=
  { clientUuid := none, clientType := none, role := none }

/-- A repository lookup over a registry containing exactly `clientExample`. -/
def repoFindExample : String → Except String (Option AllowedClient) :=
  fun s => if s = "uuid-1" then .ok (some clientExample) else .ok none

/-! ### Helper lemmas -/

theorem extractClientUuid_some_ok (v : String) (hne : v ≠ "") (ht : strTrim v ≠ "") :
    extractClientUuid (some v) = .ok (strTrim v) := by
  show (if v = "" ∨ strTrim v = "" then Except.error missingClientUuidError
        else Except.ok (strTrim v)) = Except.ok (strTrim v)
  rw [if_neg]
  rintro (h | h)
  · exact hne h
  · exact ht h

theorem validateClientUuid_success (v : String)
    (repoFind : String → Except String (Option AllowedClient))
    (repoUpdate : String → Except String Unit)
    (u : RequestUserInfo) (c : AllowedClient)
    (hne : v ≠ "") (ht : strTrim v ≠ "")
    (hfind : repoFind (strTrim v) = .ok (some c)) (hact : c.isActive = true) :
    validateClientUuid (some v) repoFind repoUpdate u
      = .ok (attachClientInfoToRequest u c) := by
  unfold validateClientUuid
  rw [extractClientUuid_some_ok v hne ht]
  show (findAllowedClient (repoFind (strTrim v))).bind _ = _
  rw [hfind]
  show (validateClientStatus c).bind _ = _
  unfold validateClientStatus
  rw [if_neg (by simp [isClientActive, hact])]
  show (updateClientLastSeen (repoUpdate (strTrim v))).bind _ = _
  cases repoUpdate (strTrim v) <;> rfl

/-- Claim C2: for every request whose matched route carries the Public marker,
the guard grants access before invoking client-UUID validation, JWT token
validation or role validation, for all header contents, repository outcomes
and token outcomes — the result is Allow and the list of validation stages
that ran is empty. -/
theorem c2_public_route_bypass (route : RouteMeta) (header : Option String)
    (repoFind : String → Except String (Option AllowedClient))
    (repoUpdate : String → Except String Unit)
    (tokenOutcome : Except String RequestUserInfo)
    (u : RequestUserInfo)
    (hpub : route.isPublicRoute = true) :
    canActivate route header repoFind repoUpdate tokenOutcome u = (Except.ok true, []) := by
  unfold canActivate
  rw [hpub]
  rfl

/-- Witness for C2: a public route with a garbage client header, a failing
registry and a failing token verification is still allowed with no validation
stage invoked. -/
theorem c2_public_route_bypass_witness :
    canActivate publicRouteExample (some "not-a-uuid") (fun _ => Except.error "db down")
      (fun _ => Except.error "db down") (Except.error "bad token") emptyUser
      = (Except.ok true, []) :=
  c2_public_route_bypass publicRouteExample (some "not-a-uuid")
    (fun _ => Except.error "db down") (fun _ => Except.error "db down")
    (Except.error "bad token") emptyUser rfl

/-- Counterexample to claim C3 as stated: under the dynamic required-role
policy `@Roles('moderator')`, the role check accepts the role `moderator` but
rejects `superadmin`, so acceptance of a role does not imply acceptance of
`superadmin` for every policy. -/
theorem c3_role_monotonicity_counterexample :
    (validateRolePermissions moderatorOnlyRoute "moderator").isOk = true
    ∧ (validateRolePermissions moderatorOnlyRoute "superadmin").isOk = false := by
  decide

/-- Claim C3 (amended): superadmin passes every role check that any role
passes under the admin-only policy, the superadmin-only policy, and dynamic
required-role sets that contain `superadmin` (under a dynamic set without
`superadmin`, superadmin is rejected even when other roles are accepted); and
the superadmin-only policy accepts `superadmin` while rejecting every other
role. -/
theorem c3_role_monotonicity_amended (route : RouteMeta) (r : String)
    (h : route.isSuperAdminRoute = true ∨ route.isAdminRoute = true ∨
      ∀ rs, route.requiredRoles = some rs → 0 < rs.length → "superadmin" ∈ rs) :
    ((validateRolePermissions route r).isOk = true →
      (validateRolePermissions route "superadmin").isOk = true)
    ∧ (validateRolePermissions superAdminOnlyRoute "superadmin").isOk = true
    ∧ (r ≠ "superadmin" → (validateRolePermissions superAdminOnlyRoute r).isOk = false) := by
  refine ⟨?_, by decide, ?_⟩
  · intro hok
    by_cases hsa : route.isSuperAdminRoute = true
    · by_cases hr : r = "superadmin"
      · rwa [hr] at hok
      · exfalso
        simp [validateRolePermissions, hsa, validateSuperAdminAccess, hr, Except.isOk, Except.toBool] at hok
    · by_cases had : route.isAdminRoute = true
      · simp only [validateRolePermissions, hsa, had, if_true, if_false,
          Bool.not_eq_true] at hok ⊢
        decide
      · rcases h with h | h | h
        · exact absurd h hsa
        · exact absurd h had
        · cases hreq : route.requiredRoles with
          | none => simp [validateRolePermissions, hsa, had, hreq, Except.isOk, Except.toBool]
          | some rs =>
            by_cases hlen : 0 < rs.length
            · have hmem : "superadmin" ∈ rs := h rs hreq hlen
              simp [validateRolePermissions, hsa, had, hreq, hlen,
                validateDynamicRoleAccess, hmem, Except.isOk, Except.toBool]
            · simp [validateRolePermissions, hsa, had, hreq, hlen, Except.isOk, Except.toBool]
  · intro hr
    simp [validateRolePermissions, superAdminOnlyRoute, validateSuperAdminAccess, hr,
      Except.isOk, Except.toBool]

/-- Witness for C3 (amended): under the superadmin-only policy, `superadmin`
is accepted and `admin` is rejected. -/
theorem c3_role_monotonicity_amended_witness :
    (validateRolePermissions superAdminOnlyRoute "superadmin").isOk = true
    ∧ (validateRolePermissions superAdminOnlyRoute "admin").isOk = false :=
  ⟨(c3_role_monotonicity_amended superAdminOnlyRoute "admin" (Or.inl rfl)).2.1,
   (c3_role_monotonicity_amended superAdminOnlyRoute "admin" (Or.inl rfl)).2.2 (by decide)⟩

/-- Claim C4 (code bug): the refresh endpoint's token-type check rejects a
verified token whose `tokenType` claim is `refresh` exactly as it rejects an
`access` token, because `JwtStrategy.validate` returns only `{ id, email }`
and drops the claim, so `req.user.tokenType` is never `'refresh'`. -/
theorem c4_refresh_rejects_valid_refresh_token :
    refreshRequest { sub := 7, email := "user@example.com", tokenType := some .refresh }
      = .error { httpStatus := 401, message := "Invalid token type" }
    ∧ refreshRequest { sub := 7, email := "user@example.com", tokenType := some .access }
      = .error { httpStatus := 401, message := "Invalid token type" }
    ∧ ∀ p : JwtPayloadModel, ∀ user : StrategyUserModel,
        jwtStrategyValidate p = .ok user → user.tokenType = none := by
  refine ⟨rfl, rfl, ?_⟩
  intro p user hok
  unfold jwtStrategyValidate at hok
  by_cases hp : p.sub = 0 ∨ p.email = ""
  · rw [if_pos hp] at hok
    exact absurd hok (by simp)
  · rw [if_neg hp] at hok
    cases hok
    rfl

/-- Counterexample to claim C5 as stated: `token` and `cookie` are in the
claimed sensitive set, yet a header named `token` and a body field named
`cookie` are persisted with their original values, because the source's
header list is `[authorization, cookie, x-api-key, x-auth-token]` and its
body list is `[password, token, secret, key, auth]`. -/
theorem c5_redaction_counterexample :
    specSensitiveKeys.contains "token" = true
    ∧ sanitizeHeaders [("token", JsonPrim.str "abc123")]
        = [("token", JsonPrim.str "abc123")]
    ∧ specSensitiveKeys.contains "cookie" = true
    ∧ sanitizeBody (JsonVal.obj [("cookie", JsonPrim.str "sid=42")])
        = JsonVal.obj [("cookie", JsonPrim.str "sid=42")] := by
  decide

/-- Claim C5 (amended): redaction is per surface — a header key in
`[authorization, cookie, x-api-key, x-auth-token]` and a body key in
`[password, token, secret, key, auth]` whose captured value is truthy is
stored as the marker `[REDACTED]`; keys outside the respective list keep
their original value. -/
theorem c5_redaction_amended (headers fields : List (String × JsonPrim))
    (k : String) (v : JsonPrim) :
    ((k, v) ∈ headers → sensitiveHeaderKeys.contains k = true → truthy v = true →
      (k, JsonPrim.str "[REDACTED]") ∈ sanitizeHeaders headers)
    ∧ ((k, v) ∈ headers → sensitiveHeaderKeys.contains k = false →
      (k, v) ∈ sanitizeHeaders headers)
    ∧ sanitizeBody (JsonVal.obj fields) = JsonVal.obj (sanitizeBodyFields fields)
    ∧ ((k, v) ∈ fields → sensitiveBodyFields.contains k = true → truthy v = true →
      (k, JsonPrim.str "[REDACTED]") ∈ sanitizeBodyFields fields)
    ∧ ((k, v) ∈ fields → sensitiveBodyFields.contains k = false →
      (k, v) ∈ sanitizeBodyFields fields) := by
  refine ⟨?_, ?_, rfl, ?_, ?_⟩
  · intro hm hs ht
    unfold sanitizeHeaders
    have hc : (sensitiveHeaderKeys.contains (k, v).1 && truthy (k, v).2) = true := by
      show (sensitiveHeaderKeys.contains k && truthy v) = true
      rw [hs, ht]
      rfl
    exact List.mem_map.mpr ⟨(k, v), hm, by rw [if_pos hc]⟩
  · intro hm hs
    unfold sanitizeHeaders
    have hc : (sensitiveHeaderKeys.contains (k, v).1 && truthy (k, v).2) = false := by
      show (sensitiveHeaderKeys.contains k && truthy v) = false
      rw [hs, Bool.false_and]
    exact List.mem_map.mpr ⟨(k, v), hm, by rw [if_neg (by rw [hc]; exact Bool.false_ne_true)]⟩
  · intro hm hs ht
    unfold sanitizeBodyFields
    have hc : (sensitiveBodyFields.contains (k, v).1 && truthy (k, v).2) = true := by
      show (sensitiveBodyFields.contains k && truthy v) = true
      rw [hs, ht]
      rfl
    exact List.mem_map.mpr ⟨(k, v), hm, by rw [if_pos hc]⟩
  · intro hm hs
    unfold sanitizeBodyFields
    have hc : (sensitiveBodyFields.contains (k, v).1 && truthy (k, v).2) = false := by
      show (sensitiveBodyFields.contains k && truthy v) = false
      rw [hs, Bool.false_and]
    exact List.mem_map.mpr ⟨(k, v), hm, by rw [if_neg (by rw [hc]; exact Bool.false_ne_true)]⟩

/-- Witness for C5 (amended): a truthy `authorization` header is stored as
the redaction marker. -/
theorem c5_redaction_amended_witness :
    ("authorization", JsonPrim.str "Bearer x")
        ∈ [("authorization", JsonPrim.str "Bearer x")]
    ∧ ("authorization", JsonPrim.str "[REDACTED]")
        ∈ sanitizeHeaders [("authorization", JsonPrim.str "Bearer x")] :=
  ⟨by decide,
   (c5_redaction_amended [("authorization", JsonPrim.str "Bearer x")] []
      "authorization" (JsonPrim.str "Bearer x")).1 (by decide) (by decide) (by decide)⟩

/-- Claim C6: client validation fails in a fixed order with fixed statuses —
missing/empty header gives the 401 missing-client-identifier error; a present
header whose trimmed value resolves to no registered client gives the 401
unknown-client error; a registered but inactive client gives the 403
client-disabled error; and only when all three checks pass does validation
succeed, attaching the client's UUID and type to the request user. -/
theorem c6_client_validation_order (header : Option String)
    (repoFind : String → Except String (Option AllowedClient))
    (repoUpdate : String → Except String Unit) (u : RequestUserInfo) :
    ((header = none ∨ header = some "" ∨ ∃ v, header = some v ∧ strTrim v = "") →
      validateClientUuid header repoFind repoUpdate u = .error missingClientUuidError)
    ∧ missingClientUuidError.httpStatus = 401
    ∧ clientNotFoundError.httpStatus = 401
    ∧ clientInactiveError.httpStatus = 403
    ∧ ∀ v, header = some v → v ≠ "" → strTrim v ≠ "" →
        ((repoFind (strTrim v) = .ok none →
           validateClientUuid header repoFind repoUpdate u = .error clientNotFoundError)
        ∧ ∀ c, repoFind (strTrim v) = .ok (some c) →
            ((c.isActive = false →
               validateClientUuid header repoFind repoUpdate u = .error clientInactiveError)
            ∧ (c.isActive = true →
               validateClientUuid header repoFind repoUpdate u
                 = .ok (attachClientInfoToRequest u c)
               ∧ (attachClientInfoToRequest u c).clientUuid = some c.clientUuid
               ∧ (attachClientInfoToRequest u c).clientType = some c.clientType))) := by
  refine ⟨?_, rfl, rfl, rfl, ?_⟩
  · rintro (rfl | rfl | ⟨v, rfl, htrim⟩)
    · rfl
    · rfl
    · have hex : extractClientUuid (some v) = .error missingClientUuidError := by
        show (if v = "" ∨ strTrim v = "" then Except.error missingClientUuidError
              else Except.ok (strTrim v)) = Except.error missingClientUuidError
        rw [if_pos (Or.inr htrim)]
      unfold validateClientUuid
      rw [hex]
      rfl
  · rintro v rfl hne htrim
    refine ⟨?_, ?_⟩
    · intro hfind
      unfold validateClientUuid
      rw [extractClientUuid_some_ok v hne htrim]
      show (findAllowedClient (repoFind (strTrim v))).bind _ = _
      rw [hfind]
      rfl
    · intro c hfind
      refine ⟨?_, ?_⟩
      · intro hinact
        unfold validateClientUuid
        rw [extractClientUuid_some_ok v hne htrim]
        show (findAllowedClient (repoFind (strTrim v))).bind _ = _
        rw [hfind]
        show (validateClientStatus c).bind _ = _
        unfold validateClientStatus
        rw [if_pos (by simp [isClientActive, hinact])]
        rfl
      · intro hact
        exact ⟨validateClientUuid_success v repoFind repoUpdate u c hne htrim hfind hact,
          rfl, rfl⟩

/-- Witness for C6: an absent header yields the 401 missing-client-identifier
error. -/
theorem c6_client_validation_order_witness :
    validateClientUuid none repoFindExample (fun _ => Except.ok ()) emptyUser
      = .error missingClientUuidError
    ∧ missingClientUuidError.httpStatus = 401 :=
  ⟨(c6_client_validation_order none repoFindExample (fun _ => Except.ok ()) emptyUser).1
      (Or.inl rfl),
   (c6_client_validation_order none repoFindExample (fun _ => Except.ok ()) emptyUser).2.1⟩

/-- Claim C9: when the header is present, the client is found and active, a
failure of the `lastSeenAt` write is caught and swallowed — the request still
passes client validation with the client info attached, and the validation
outcome does not depend on the write outcome at all. -/
theorem c9_last_seen_write_is_best_effort (v : String)
    (repoFind : String → Except String (Option AllowedClient))
    (u : RequestUserInfo) (c : AllowedClient) (errMsg : String)
    (hne : v ≠ "") (htrim : strTrim v ≠ "")
    (hfind : repoFind (strTrim v) = .ok (some c)) (hact : c.isActive = true) :
    validateClientUuid (some v) repoFind (fun _ => Except.error errMsg) u
      = .ok (attachClientInfoToRequest u c)
    ∧ ∀ w1 w2 : Except String Unit,
        validateClientUuid (some v) repoFind (fun _ => w1) u
          = validateClientUuid (some v) repoFind (fun _ => w2) u := by
  refine ⟨validateClientUuid_success v repoFind _ u c hne htrim hfind hact, ?_⟩
  intro w1 w2
  rw [validateClientUuid_success v repoFind _ u c hne htrim hfind hact,
    validateClientUuid_success v repoFind _ u c hne htrim hfind hact]

/-- Witness for C9: with a registered active client and a failing
`updateLastSeen` write, validation still succeeds and attaches the client. -/
theorem c9_last_seen_write_is_best_effort_witness :
    validateClientUuid (some "uuid-1") repoFindExample
        (fun _ => Except.error "db write failed") emptyUser
      = .ok (attachClientInfoToRequest emptyUser clientExample) :=
  (c9_last_seen_write_is_best_effort "uuid-1" repoFindExample emptyUser clientExample
    "db write failed" (by decide) (by decide) rfl rfl).1

/-- Claim C8: the global exception filter passes an already-typed HTTP
exception through with status and body unchanged; a plain Error whose
lowercased message contains "duplicate" or "unique" maps to 409 Conflict;
otherwise one containing "foreign key" maps to 400 Bad Request; any other
plain Error maps to 500 — with only a generic message in production mode, and
with the original message and stack otherwise. -/
theorem c8_exception_classification (e : HttpExceptionModel) (m : String)
    (st : Option String) (p : Bool) :
    processException (.httpExc e) p = e
    ∧ ((containsSub (toLowerStr m) "duplicate" = true
          ∨ containsSub (toLowerStr m) "unique" = true) →
        processException (.plainError m st) p
          = { status := 409, responseBody := .text "Duplicate record" })
    ∧ (containsSub (toLowerStr m) "duplicate" = false →
        containsSub (toLowerStr m) "unique" = false →
        containsSub (toLowerStr m) "foreign key" = true →
        processException (.plainError m st) p
          = { status := 400, responseBody := .text "Invalid relation" })
    ∧ (containsSub (toLowerStr m) "duplicate" = false →
        containsSub (toLowerStr m) "unique" = false →
        containsSub (toLowerStr m) "foreign key" = false →
        (processException (.plainError m st) true
            = { status := 500, responseBody := .text "Internal server error" }
         ∧ processException (.plainError m st) false
            = { status := 500, responseBody := .withStack m st })) := by
  refine ⟨rfl, ?_, ?_, ?_⟩
  · intro h
    show handleCommonError m st p = _
    unfold handleCommonError
    rcases h with h | h
    · rw [if_pos (by rw [h]; rfl)]
    · rw [if_pos (by rw [h, Bool.or_true])]
  · intro h1 h2 h3
    show handleCommonError m st p = _
    unfold handleCommonError
    rw [if_neg (by rw [h1, h2]; exact Bool.false_ne_true), if_pos h3]
  · intro h1 h2 h3
    constructor
    · show handleCommonError m st true = _
      unfold handleCommonError
      rw [if_neg (by rw [h1, h2]; exact Bool.false_ne_true),
        if_neg (by rw [h3]; exact Bool.false_ne_true), if_pos rfl]
    · show handleCommonError m st false = _
      unfold handleCommonError
      rw [if_neg (by rw [h1, h2]; exact Bool.false_ne_true),
        if_neg (by rw [h3]; exact Bool.false_ne_true), if_neg (by exact Bool.false_ne_true)]

/-- Witness for C8: a database duplicate-key message maps to 409 Conflict. -/
theorem c8_exception_classification_witness :
    containsSub (toLowerStr "Duplicate key value violates constraint") "duplicate" = true
    ∧ processException (.plainError "Duplicate key value violates constraint" none) true
        = { status := 409, responseBody := .text "Duplicate record" } :=
  ⟨by decide,
   (c8_exception_classification { status := 200, responseBody := .text "ok" }
      "Duplicate key value violates constraint" none true).2.1 (Or.inl (by decide))⟩

/-- Claim C10: the monitoring clear operation empties only the in-memory
index — afterwards the map has size 0 and every lookup by id reports
not-found-in-memory, while the on-disk CSV rows are unchanged. -/
theorem c10_clear_logs_only_memory (st : RecorderState) (requestId : String) :
    (clearLogs st).requestLogs.length = 0
    ∧ getRequestLog (clearLogs st) requestId = none
    ∧ (clearLogs st).csvRows = st.csvRows :=
  ⟨rfl, rfl, rfl⟩

/-- Claim C1 (code bug): a request the interceptor handled (normal completion
or an error thrown inside the handler) is completed exactly once, but a
request that errors before any interceptor ran — an unmatched route such as
`GET /does-not-exist` (404) or a guard rejection (401) — is completed twice:
the filter's fallback completion runs, and then the middleware's `res.end`
hook, seeing `wasHandledByInterceptor` still unset, completes the same entry
again, persisting a second CSV row. -/
theorem c1_terminal_log_entry_duplication :
    completedRowCount
        (runRequestPipeline (.success 200) "rid-1" 0 "/auth/test"
          { requestLogs := [], csvRows := [] }) "rid-1" = 1
    ∧ completedRowCount
        (runRequestPipeline (.handlerError 409) "rid-1" 0 "/auth/test"
          { requestLogs := [], csvRows := [] }) "rid-1" = 1
    ∧ completedRowCount
        (runRequestPipeline (.preInterceptorError 404) "rid-1" 0 "/does-not-exist"
          { requestLogs := [], csvRows := [] }) "rid-1" = 2
    ∧ completedRowCount
        (runRequestPipeline (.preInterceptorError 401) "rid-1" 0 "/auth/profile"
          { requestLogs := [], csvRows := [] }) "rid-1" = 2 := by
  refine ⟨rfl, rfl, rfl, rfl⟩

theorem mapSet_append_of_fresh (m : List (String × LogEntry)) (k : String) (v : LogEntry)
    (h : ∀ kv ∈ m, kv.1 ≠ k) : mapSet m k v = m ++ [(k, v)] := by
  unfold mapSet
  rw [if_neg]
  intro hany
  obtain ⟨kv, hmem, hp⟩ := List.any_eq_true.1 hany
  exact h kv hmem (of_decide_eq_true hp)

theorem logRequest_csvRows (st : RecorderState) (d : LogData) :
    (logRequest st d).csvRows = st.csvRows := rfl

theorem cleanupOldLogs_perm (m : List (String × LogEntry)) (o : String × LogEntry)
    (D : List (String × LogEntry))
    (hlen : m.length = maxStoredLogs + 1)
    (hperm : m.Perm (o :: D))
    (hmin : ∀ y ∈ D, o.2.timestamp < y.2.timestamp) :
    (cleanupOldLogs m).Perm D := by
  have hgt : ¬ m.length ≤ maxStoredLogs := by omega
  unfold cleanupOldLogs
  rw [if_neg hgt]
  have hsp : (List.mergeSort m byTimestampDesc).Perm m := List.mergeSort_perm m byTimestampDesc
  have hsorted : List.Pairwise (fun a b => byTimestampDesc a b = true)
      (List.mergeSort m byTimestampDesc) := by
    apply List.sorted_mergeSort
    · intro a b c hab hbc
      simp only [byTimestampDesc, decide_eq_true_eq] at hab hbc ⊢
      omega
    · intro a b
      simp only [byTimestampDesc, Bool.or_eq_true, decide_eq_true_eq]
      omega
  have hslen : (List.mergeSort m byTimestampDesc).length = maxStoredLogs + 1 := by
    rw [hsp.length_eq, hlen]
  have hsplit : (List.mergeSort m byTimestampDesc).take maxStoredLogs
      ++ (List.mergeSort m byTimestampDesc).drop maxStoredLogs
      = List.mergeSort m byTimestampDesc := List.take_append_drop _ _
  have hdlen : ((List.mergeSort m byTimestampDesc).drop maxStoredLogs).length = 1 := by
    rw [List.length_drop, hslen]
    omega
  obtain ⟨z, hz⟩ := List.length_eq_one.mp hdlen
  have hseq : (List.mergeSort m byTimestampDesc).take maxStoredLogs ++ [z]
      = List.mergeSort m byTimestampDesc := by
    rw [← hz]
    exact hsplit
  have hsorted2 : List.Pairwise (fun a b => byTimestampDesc a b = true)
      ((List.mergeSort m byTimestampDesc).take maxStoredLogs ++ [z]) := by
    rw [hseq]
    exact hsorted
  have hslast : ∀ a ∈ (List.mergeSort m byTimestampDesc).take maxStoredLogs,
      z.2.timestamp ≤ a.2.timestamp := by
    intro a ha
    have h2 := (List.pairwise_append.1 hsorted2).2.2 a ha z (List.mem_singleton.2 rfl)
    simpa only [byTimestampDesc, decide_eq_true_eq] using h2
  have hpsz : m.Perm ((List.mergeSort m byTimestampDesc).take maxStoredLogs ++ [z]) := by
    have h3 : ((List.mergeSort m byTimestampDesc).take maxStoredLogs ++ [z]).Perm
        (List.mergeSort m byTimestampDesc) := by
      rw [hseq]
    exact hsp.symm.trans h3.symm
  have hzmem : z ∈ m := hpsz.symm.subset (List.mem_append_right _ (List.mem_singleton.2 rfl))
  rcases List.mem_cons.1 (hperm.subset hzmem) with hzo | hzD
  · subst hzo
    have h1 : ((List.mergeSort m byTimestampDesc).take maxStoredLogs ++ [z]).Perm
        (z :: (List.mergeSort m byTimestampDesc).take maxStoredLogs) :=
      List.perm_append_singleton z _
    have h2 : (z :: (List.mergeSort m byTimestampDesc).take maxStoredLogs).Perm (z :: D) :=
      h1.symm.trans (hpsz.symm.trans hperm)
    exact h2.cons_inv
  · exfalso
    have h3 : o.2.timestamp < z.2.timestamp := hmin z hzD
    have hom : o ∈ m := hperm.symm.subset (List.mem_cons_self o D)
    rcases List.mem_append.1 (hpsz.subset hom) with ho | ho
    · have := hslast o ho
      omega
    · have h4 : o = z := List.mem_singleton.1 ho
      rw [h4] at h3
      omega

theorem logRequest_step (st : RecorderState) (processed : List LogData) (e : LogData)
    (hperm : st.requestLogs.Perm (sliceMap processed))
    (hpp : processed.Pairwise fun a b => a.timestamp < b.timestamp)
    (hfresh : e.requestId ∉ processed.map LogData.requestId)
    (hts : ∀ d ∈ processed, d.timestamp < e.timestamp) :
    (logRequest st e).requestLogs.Perm (sliceMap (processed ++ [e])) := by
  have hf : ∀ kv ∈ st.requestLogs, kv.1 ≠ e.requestId := by
    intro kv hkv heq
    have hkv2 : kv ∈ sliceMap processed := hperm.subset hkv
    obtain ⟨d, hd, hkv3⟩ := List.mem_map.1 hkv2
    have hdp : d ∈ processed := List.mem_of_mem_drop hd
    apply hfresh
    rw [← heq, ← hkv3]
    exact List.mem_map.2 ⟨d, hdp, rfl⟩
  have hms : mapSet st.requestLogs e.requestId (toEntry e)
      = st.requestLogs ++ [(e.requestId, toEntry e)] := mapSet_append_of_fresh _ _ _ hf
  have hreqeq : (logRequest st e).requestLogs
      = if maxStoredLogs < (mapSet st.requestLogs e.requestId (toEntry e)).length
        then cleanupOldLogs (mapSet st.requestLogs e.requestId (toEntry e))
        else mapSet st.requestLogs e.requestId (toEntry e) := rfl
  rw [hreqeq, hms]
  have hm1 : (st.requestLogs ++ [(e.requestId, toEntry e)]).Perm
      (sliceMap processed ++ [toKV e]) := hperm.append_right _
  have hlen0 : st.requestLogs.length
      = processed.length - (processed.length - maxStoredLogs) := by
    rw [hperm.length_eq]
    simp [sliceMap]
  by_cases hcap : processed.length < maxStoredLogs
  · have hlen1 : st.requestLogs.length = processed.length := by omega
    rw [if_neg (by rw [List.length_append, List.length_singleton, hlen1]; omega)]
    have htarget : sliceMap (processed ++ [e]) = processed.map toKV ++ [toKV e] := by
      unfold sliceMap
      rw [List.length_append, List.length_singleton,
        Nat.sub_eq_zero_of_le (by omega), List.drop_zero, List.map_append]
      rfl
    rw [htarget]
    have hslice : sliceMap processed = processed.map toKV := by
      unfold sliceMap
      rw [Nat.sub_eq_zero_of_le (by omega), List.drop_zero]
    exact hslice ▸ hm1
  · push_neg at hcap
    have hmaxpos : 0 < maxStoredLogs := by decide
    have hdplen : (processed.drop (processed.length - maxStoredLogs)).length
        = maxStoredLogs := by
      rw [List.length_drop]
      omega
    have hdpne : processed.drop (processed.length - maxStoredLogs) ≠ [] := by
      intro hnil
      rw [hnil] at hdplen
      exact absurd hdplen (by decide)
    obtain ⟨oldest, rest, hcons⟩ := List.exists_cons_of_ne_nil hdpne
    have hsliceP : sliceMap processed = toKV oldest :: rest.map toKV := by
      unfold sliceMap
      rw [hcons]
      rfl
    have hdpw : (processed.drop (processed.length - maxStoredLogs)).Pairwise
        (fun a b => a.timestamp < b.timestamp) := hpp.sublist (List.drop_sublist _ _)
    have hminrest : ∀ y ∈ rest, oldest.timestamp < y.timestamp := by
      rw [hcons] at hdpw
      exact fun y hy => (List.pairwise_cons.1 hdpw).1 y hy
    have holdp : oldest ∈ processed := by
      have hmd : oldest ∈ processed.drop (processed.length - maxStoredLogs) := by
        rw [hcons]
        exact List.mem_cons_self _ _
      exact List.mem_of_mem_drop hmd
    have hm1len : (st.requestLogs ++ [(e.requestId, toEntry e)]).length
        = maxStoredLogs + 1 := by
      rw [List.length_append, List.length_singleton, hlen0]
      omega
    rw [if_pos (by rw [hm1len]; omega)]
    have htarget : sliceMap (processed ++ [e]) = rest.map toKV ++ [toKV e] := by
      unfold sliceMap
      rw [List.length_append, List.length_singleton]
      have h5 : processed.length + 1 - maxStoredLogs
          = (processed.length - maxStoredLogs) + 1 := by omega
      rw [h5, List.drop_append_of_le_length (by omega)]
      have h7 := congrArg (List.drop 1) hcons
      rw [List.drop_drop] at h7
      simp only [List.drop_succ_cons, List.drop_zero] at h7
      have h7b : processed.drop (processed.length - maxStoredLogs + 1) = rest := h7
      rw [h7b, List.map_append]
      rfl
    rw [htarget]
    apply cleanupOldLogs_perm _ (toKV oldest) _ hm1len
    · have h8 : (st.requestLogs ++ [(e.requestId, toEntry e)]).Perm
          ((toKV oldest :: rest.map toKV) ++ [toKV e]) := by
        rw [← hsliceP]
        exact hm1
      exact h8
    · intro y hy
      rcases List.mem_append.1 hy with hy | hy
      · obtain ⟨d, hd, rfl⟩ := List.mem_map.1 hy
        exact hminrest d hd
      · have hye : y = toKV e := List.mem_singleton.1 hy
        rw [hye]
        exact hts oldest holdp

theorem foldl_logRequest_inv (rest : List LogData) (processed : List LogData)
    (st : RecorderState)
    (hpw : (processed ++ rest).Pairwise fun a b => a.timestamp < b.timestamp)
    (hnd : ((processed ++ rest).map LogData.requestId).Nodup)
    (hperm : st.requestLogs.Perm (sliceMap processed)) :
    (rest.foldl logRequest st).requestLogs.Perm (sliceMap (processed ++ rest))
    ∧ (rest.foldl logRequest st).csvRows = st.csvRows := by
  induction rest generalizing processed st with
  | nil =>
    refine ⟨?_, rfl⟩
    simpa using hperm
  | cons e rest ih =>
    have hpp : processed.Pairwise (fun a b => a.timestamp < b.timestamp) :=
      (List.pairwise_append.1 hpw).1
    have hts : ∀ d ∈ processed, d.timestamp < e.timestamp := fun d hd =>
      (List.pairwise_append.1 hpw).2.2 d hd e (List.mem_cons_self e rest)
    have hfresh : e.requestId ∉ processed.map LogData.requestId := by
      intro hin
      rw [List.map_append] at hnd
      exact (List.nodup_append.1 hnd).2.2 hin (by simp)
    have hstep := logRequest_step st processed e hperm hpp hfresh hts
    have hre : (processed ++ [e]) ++ rest = processed ++ e :: rest := by simp
    have hpw2 : ((processed ++ [e]) ++ rest).Pairwise
        (fun a b => a.timestamp < b.timestamp) := by
      rw [hre]
      exact hpw
    have hnd2 : (((processed ++ [e]) ++ rest).map LogData.requestId).Nodup := by
      rw [hre]
      exact hnd
    have ih2 := ih (processed ++ [e]) (logRequest st e) hpw2 hnd2 hstep
    refine ⟨?_, ih2.2⟩
    have h9 := ih2.1
    rw [hre] at h9
    exact h9

theorem natKey_injective : Function.Injective natKey := by
  intro a b h
  have h2 : List.replicate a 'a' = List.replicate b 'a' := congrArg String.data h
  have h3 := congrArg List.length h2
  simpa using h3

theorem esW_ids_nodup : (esW.map LogData.requestId).Nodup := by
  unfold esW
  rw [List.map_map]
  exact (List.nodup_range _).map natKey_injective

theorem esW_ts_pairwise : esW.Pairwise fun a b => a.timestamp < b.timestamp := by
  unfold esW
  rw [List.pairwise_map]
  exact List.pairwise_lt_range _

theorem esW_length_gt : maxStoredLogs < esW.length := by
  unfold esW
  rw [List.length_map, List.length_range]
  omega

/-- Claim C7: starting from an empty in-memory index with capacity 5000,
sequentially inserting more than 5000 begin-records with distinct request ids
and (strictly increasing) distinct timestamps via `logRequest` leaves the
index at exactly 5000 entries, whose contents are exactly the 5000 records
with the most recent timestamps; the on-disk CSV rows are never touched by
insertion or eviction. -/
theorem c7_eviction_bound (es : List LogData) (csv : List CsvRow)
    (hnd : (es.map LogData.requestId).Nodup)
    (hpw : es.Pairwise fun a b => a.timestamp < b.timestamp)
    (hlen : maxStoredLogs < es.length) :
    (es.foldl logRequest { requestLogs := [], csvRows := csv }).requestLogs.length
      = maxStoredLogs
    ∧ (es.foldl logRequest { requestLogs := [], csvRows := csv }).requestLogs.Perm
        ((es.drop (es.length - maxStoredLogs)).map toKV)
    ∧ (es.foldl logRequest { requestLogs := [], csvRows := csv }).csvRows = csv := by
  have hinv := foldl_logRequest_inv es [] { requestLogs := [], csvRows := csv }
    (by simpa using hpw) (by simpa using hnd) (by simp [sliceMap])
  have h1 : (es.foldl logRequest
      { requestLogs := [], csvRows := csv }).requestLogs.Perm (sliceMap es) := by
    simpa using hinv.1
  refine ⟨?_, h1, hinv.2⟩
  rw [h1.length_eq]
  simp only [sliceMap, List.length_map, List.length_drop]
  omega

/-- Witness for C7: the concrete sequence `esW` of 5001 records with distinct
ids and increasing timestamps satisfies the hypotheses, and inserting it
leaves the index at exactly `maxStoredLogs` entries. -/
theorem c7_eviction_bound_witness :
    (esW.map LogData.requestId).Nodup
    ∧ maxStoredLogs < esW.length
    ∧ (esW.foldl logRequest { requestLogs := [], csvRows := [] }).requestLogs.length
        = maxStoredLogs :=
  ⟨esW_ids_nodup, esW_length_gt,
   (c7_eviction_bound esW [] esW_ids_nodup esW_ts_pairwise esW_length_gt).1⟩
